import Mathlib

/-!
Verification development for the U++ example programs of this repository.

Strings are embedded as `List Char`. The U++ `Value` variant is embedded as
the inductive `UValue`, covering the alternatives the examples actually use:
the error sentinel, plain strings, the user struct `MyColorValue`, and an
integer alternative standing for every other payload. Framework routines that
are not part of this repository (`Color::Scan`, `Color::ToString`, the binary
stream serialization) are modelled from the repository's own comments and
guide text, and are clearly marked as such.
-/

set_option maxRecDepth 16000

/-- RGB color, embedding the framework `Color` the examples store (the
examples only construct and compare colors; channels are kept as `Nat`). -/
structure Color where
  r : Nat
  g : Nat
  b : Nat
  deriving DecidableEq, Repr

/-- Modelled from the spec: the framework constant `Black()` used by the
`MyColorValue` default constructor; black is RGB (0,0,0). -/
def blackColor : Color := ⟨0, 0, 0⟩

/-- The example struct of the display/convert example: a color plus a name. -/
structure MyColorValue where
  colorVal : Color
  name : List Char
  deriving DecidableEq, Repr

/-- Embeds `MyColorValue() : colorVal(Black()) {}`: the default constructor
sets the color to black and leaves the name default-constructed (empty). -/
def MyColorValue.defaultCtor : MyColorValue := ⟨blackColor, []⟩

/-- The example struct of the serialization example: a name plus an integer. -/
structure MySerializableObject where
  name : List Char
  value : Int
  deriving DecidableEq, Repr

/-- Embeds `MySerializableObject() : value(0) {}`: value is zero and the name
is default-constructed (empty). -/
def MySerializableObject.defaultCtor : MySerializableObject := ⟨[], 0⟩

/-- Embedding of the U++ `Value` variant, restricted to the alternatives the
examples use: the error sentinel `ErrorValue()`, a string, a `MyColorValue`
payload (`RawToValue`), and an integer alternative representing any other
payload type. -/
inductive UValue where
  | error : UValue
  | str : List Char → UValue
  | mcv : MyColorValue → UValue
  | vint : Int → UValue
  deriving DecidableEq, Repr

/-- Embeds `q.Is<MyColorValue>()`. -/
def UValue.isMyColorValue : UValue → Bool
  | .mcv _ => true
  | _ => false

/-- Embeds U++ `String::Find(chr)`: index of the first occurrence, `none`
standing for the C++ return value `-1`. -/
def sfind (c : Char) : List Char → Option Nat
  | [] => none
  | a :: t => if a = c then some 0 else (sfind c t).map (· + 1)

/-- Character class trimmed by U++ `TrimLeft`/`TrimRight`: bytes up to and
including the space character. -/
def isSpaceB (c : Char) : Bool := c.toNat ≤ 32

/-- Embeds U++ `TrimLeft`: drop leading characters up to space. -/
def trimLeft (l : List Char) : List Char := l.dropWhile isSpaceB

/-- Embeds U++ `TrimRight`: drop trailing characters up to space. -/
def trimRight (l : List Char) : List Char := (trimLeft l.reverse).reverse

/-- Embeds U++ `TrimBoth`: trim both ends. -/
def trimBoth (l : List Char) : List Char := trimLeft (trimRight l)

/-- The sixteen upper-case hexadecimal digit characters. -/
def hexChars : List Char :=
  ['0', '1', '2', '3', '4', '5', '6', '7', '8', '9', 'A', 'B', 'C', 'D', 'E', 'F']

/-- Hexadecimal digit character of a value (callers pass values below 16). -/
def hexDigit (n : Nat) : Char := hexChars.getD n '0'

/-- Two-digit hexadecimal rendering of a byte. -/
def toHex2 (n : Nat) : List Char := [hexDigit (n / 16 % 16), hexDigit (n % 16)]

/-- Modelled from the spec: the framework's `Color::ToString`, not part of
this repository; the examples display colors in the `"#RRGGBB"` form
(`"Orange (#FFA500)"`), so the model renders the three channels as two
upper-case hex digits each after a `#`. -/
def colorToStringModel (c : Color) : List Char :=
  '#' :: (toHex2 c.r ++ toHex2 c.g ++ toHex2 c.b)

/-- Value of a hexadecimal digit character, `none` on any other character. -/
def fromHexDigit (c : Char) : Option Nat := hexChars.findIdx? (· = c)

/-- Modelled from the spec: the framework's `Color::Scan`, not part of this
repository; per the example's own comment it "can parse #RRGGBB and color
names", and the model accepts exactly the `"#RRGGBB"` form. -/
def colorScanModel (s : List Char) : Option Color :=
  match s with
  | '#' :: a :: b :: c :: d :: e :: f :: [] => do
    let r1 ← fromHexDigit a
    let r2 ← fromHexDigit b
    let g1 ← fromHexDigit c
    let g2 ← fromHexDigit d
    let b1 ← fromHexDigit e
    let b2 ← fromHexDigit f
    some ⟨r1 * 16 + r2, g1 * 16 + g2, b1 * 16 + b2⟩
  | _ => none

namespace MyColorValueConvert

/-- Embeds `MyColorValueConvert::Format`, parametric in the framework's
`Color::ToString`: a `MyColorValue` becomes the string
`Sprintf("%s (%s)", name, colorVal.ToString())`; every other value is
returned unchanged. -/
def Format (colorToString : Color → List Char) (q : UValue) : UValue :=
  match q with
  | .mcv m => .str (m.name ++ ' ' :: '(' :: (colorToString m.colorVal ++ [')']))
  | _ => q

/-- Embeds `MyColorValueConvert::Scan`, parametric in the framework's
`Color::Scan`: on a string, find the first `(` and the first `)`; if both
exist and the `)` comes more than one position after the `(`, trim the text
before the `(` as the name and the text between them as the color spec, and
build a `MyColorValue` when the color spec scans; every other case yields
`ErrorValue()`. -/
def Scan (colorScan : List Char → Option Color) (q : UValue) : UValue :=
  match q with
  | .str s =>
    match sfind '(' s, sfind ')' s with
    | some obracket, some cbracket =>
      if obracket + 1 < cbracket then
        match colorScan (trimBoth ((s.drop (obracket + 1)).take (cbracket - obracket - 1))) with
        | some c => .mcv ⟨c, trimBoth (s.take obracket)⟩
        | none => .error
      else .error
    | _, _ => .error
  | _ => .error

/-- Embeds `MyColorValueConvert::Filter`: the identity. -/
def Filter (q : UValue) : UValue := q

end MyColorValueConvert

/-- State of the display/convert window that the convert-button handler can
touch: the `MyColorValueCtrl`'s `data` field and the result label's text. -/
structure WindowState where
  ctrlData : MyColorValue
  resultLabel : List Char
  deriving DecidableEq, Repr

/-- Label text set on a successful conversion. -/
def successMsg : List Char := "Conversion successful!".toList

/-- Label text set on a failed conversion. -/
def failMsg : List Char :=
  "Conversion failed. Try \x27Name (ColorSpec)\x27 e.g. \x27Lime (#00FF00)\x27".toList

/-- Embeds the convert-button lambda of `MyDisplayTestWindow`: scan the edit
field's text; when the result is a `MyColorValue`, pass it to
`myCtrl.SetData` (which overwrites `data`) and report success; otherwise
leave `myCtrl` alone and report failure. -/
def convertButtonHandler (colorScan : List Char → Option Color)
    (editText : List Char) (st : WindowState) : WindowState :=
  match MyColorValueConvert.Scan colorScan (.str editText) with
  | .mcv m => ⟨m, successMsg⟩
  | _ => ⟨st.ctrlData, failMsg⟩

/-- Alphabet of the modelled serialization stream: a length or count, a
character of a string, or a serialized integer. -/
inductive StreamItem where
  | snat : Nat → StreamItem
  | schar : Char → StreamItem
  | sint : Int → StreamItem
  deriving DecidableEq, Repr

/-- Modelled from the spec: the framework serialization of a `String`
(`s % name`), not part of this repository; a count followed by the
characters. -/
def encString (s : List Char) : List StreamItem := .snat s.length :: s.map .schar

/-- Decode a block of character items, failing on any other item. -/
def decChars : List StreamItem → Option (List Char)
  | [] => some []
  | .schar c :: t => (decChars t).map (c :: ·)
  | _ => none

/-- Modelled from the spec: framework deserialization of a `String`: read the
count, then that many character items, returning the rest of the stream. -/
def decString (l : List StreamItem) : Option (List Char × List StreamItem) :=
  match l with
  | .snat n :: rest =>
    if n ≤ rest.length then
      (decChars (rest.take n)).map fun cs => (cs, rest.drop n)
    else none
  | _ => none

/-- Embeds `MySerializableObject::Serialize` through `StoreAsString`
(modelled from the spec: the framework `Stream` is not part of this
repository): `s % name % value` writes the name then the value. -/
def storeAsString (o : MySerializableObject) : List StreamItem :=
  encString o.name ++ [.sint o.value]

/-- Embeds `MySerializableObject::Serialize` through `LoadFromString`
(modelled from the spec): read the name, then the value, requiring the
stream to be exhausted; `none` stands for the `false` return. -/
def loadFromString (l : List StreamItem) : Option MySerializableObject :=
  match decString l with
  | some (n, rest) =>
    match rest with
    | [.sint v] => some ⟨n, v⟩
    | _ => none
  | none => none

/-- Modelled from the spec: `StoreToFile` writes to the file exactly the
bytes `StoreAsString` would produce; the result is the file's content. -/
def storeToFile (o : MySerializableObject) : List StreamItem := storeAsString o

/-- Modelled from the spec: `LoadFromFile` deserializes the file's content,
returning `none` (the `false` return) when deserialization fails. -/
def loadFromFile (content : List StreamItem) : Option MySerializableObject :=
  loadFromString content

/-- The guide's U++ exception type `Exc`, carrying a message. -/
def Exc : Type := List Char

/-- Log line of the serialization example on a successful file load. -/
def msgFileLoaded : List Char := "Loaded object from file successfully:".toList

/-- Log line of the serialization example on a failed file load. -/
def msgFileLoadFailed : List Char := "Failed to load object from file!".toList

/-- Embeds the load-from-file check of the serialization example (the
`if (LoadFromFile(...)) ... else LOG_ERROR(...)` branch): the outcome is the
log line, and both branches complete normally — the `Except` codomain shows
that neither branch raises the framework exception. -/
def loadFromFileCheck (content : List StreamItem) : Except Exc (List Char) :=
  match loadFromFile content with
  | some _ => .ok msgFileLoaded
  | none => .ok msgFileLoadFailed

/-- Embeds the session guide's error-handling snippet: open a file and
`throw Exc("Cannot open data.txt")` when the stream is not ok. -/
def guideFileOpenCheck (fileOpens : Bool) : Except Exc Unit :=
  if fileOpens then .ok () else .error "Cannot open data.txt".toList

/-- Embeds the list built by the parallel-sum example: the integers 1..100. -/
def parNumbers : List Int := (List.range 100).map fun i => (i : Int) + 1

/-- Embeds the per-subrange loop `for(int x : subrange) localSum += x`. -/
def localSum (l : List Int) : Int := l.foldl (· + ·) 0

/-- Embeds the accumulation of the per-subrange sums into the `Atomic`
counter, over the subranges in the order the worker threads happen to
complete. -/
def coPartitionTotal (sched : List (List Int)) : Int :=
  (sched.map localSum).foldl (· + ·) 0

/-- Embeds the sequential verification loop of the parallel-sum example. -/
def expectedSum : Int := parNumbers.foldl (· + ·) 0

/-! ### Helper lemmas about the embedded string primitives -/

/-- `Find` returns `-1` exactly when the character does not occur. -/
theorem sfind_eq_none_iff (c : Char) (l : List Char) : sfind c l = none ↔ c ∉ l := by
  induction l with
  | nil => simp [sfind]
  | cons a t ih =>
    by_cases h : a = c
    · subst h; simp [sfind]
    · simp [sfind, h, ih, Ne.symm h]

/-- `Find` on an appended list skips a block without the character. -/
theorem sfind_append_of_not_mem (c : Char) (l1 l2 : List Char) (h : c ∉ l1) :
    sfind c (l1 ++ l2) = (sfind c l2).map (· + l1.length) := by
  induction l1 with
  | nil => cases hf : sfind c l2 <;> simp [hf]
  | cons a t ih =>
    have ha : ¬ a = c := fun e => h (by simp [e])
    have ht : c ∉ t := fun m => h (List.mem_cons_of_mem a m)
    cases hf : sfind c l2 with
    | none => simp [sfind, ha, ih ht, hf]
    | some k => simp [sfind, ha, ih ht, hf]; omega

/-- The index `Find` returns really carries the character. -/
theorem sfind_getElem (c : Char) (l : List Char) (i : Nat)
    (h : sfind c l = some i) : l[i]? = some c := by
  induction l generalizing i with
  | nil => simp [sfind] at h
  | cons a t ih =>
    by_cases ha : a = c
    · subst ha
      simp [sfind] at h
      subst h
      simp
    · simp [sfind, ha] at h
      obtain ⟨j, hj, rfl⟩ := h
      simpa using ih j hj

/-- Trimming the right end absorbs a trailing space. -/
theorem trimRight_append_space (l : List Char) :
    trimRight (l ++ [' ']) = trimRight l := by
  simp [trimRight, trimLeft, List.dropWhile_cons, isSpaceB]

/-- Trimming both ends absorbs a trailing space. -/
theorem trimBoth_append_space (l : List Char) :
    trimBoth (l ++ [' ']) = trimBoth l := by
  simp [trimBoth, trimRight_append_space]

/-- A list without trimmable characters is untouched by `TrimLeft`. -/
theorem trimLeft_eq_self (l : List Char) (h : ∀ ch ∈ l, isSpaceB ch = false) :
    trimLeft l = l := by
  cases l with
  | nil => rfl
  | cons a t => simp [trimLeft, List.dropWhile_cons, h a (by simp)]

/-- A list without trimmable characters is untouched by `TrimBoth`. -/
theorem trimBoth_eq_self (l : List Char) (h : ∀ ch ∈ l, isSpaceB ch = false) :
    trimBoth l = l := by
  have hr : trimRight l = l := by
    have := trimLeft_eq_self l.reverse (fun ch hm => h ch (by simpa using hm))
    simp [trimRight, this]
  simp [trimBoth, hr, trimLeft_eq_self l h]

/-- Every digit the hex renderer emits is one of the sixteen hex digits. -/
theorem hexDigit_mem (n : Nat) : hexDigit n ∈ hexChars := by
  unfold hexDigit
  rcases h : hexChars[n]? with _ | x
  · simp [List.getD, h]
    decide
  · simp [List.getD, h]
    exact List.getElem?_mem h

/-- Every character of the modelled color string is `#` or a hex digit. -/
theorem colorToStringModel_chars (c : Color) (ch : Char)
    (h : ch ∈ colorToStringModel c) : ch = '#' ∨ ch ∈ hexChars := by
  simp [colorToStringModel, toHex2] at h
  rcases h with h | h | h | h | h | h | h <;> subst h
  · left; rfl
  all_goals exact Or.inr (hexDigit_mem _)

/-- The modelled color string contains no opening parenthesis. -/
theorem colorToStringModel_no_open (c : Color) : '(' ∉ colorToStringModel c := by
  intro h
  rcases colorToStringModel_chars c '(' h with h1 | h1
  · exact absurd h1 (by decide)
  · exact absurd h1 (by decide)

/-- The modelled color string contains no closing parenthesis. -/
theorem colorToStringModel_no_close (c : Color) : ')' ∉ colorToStringModel c := by
  intro h
  rcases colorToStringModel_chars c ')' h with h1 | h1
  · exact absurd h1 (by decide)
  · exact absurd h1 (by decide)

/-- The modelled color string contains no trimmable character. -/
theorem colorToStringModel_no_space (c : Color) :
    ∀ ch ∈ colorToStringModel c, isSpaceB ch = false := by
  intro ch h
  rcases colorToStringModel_chars c ch h with h1 | h1
  · subst h1; decide
  · exact (by decide : ∀ x ∈ hexChars, isSpaceB x = false) ch h1

/-- The modelled color string has seven characters. -/
theorem colorToStringModel_length (c : Color) :
    (colorToStringModel c).length = 7 := by
  simp [colorToStringModel, toHex2]

/-! ### Helper lemmas about the modelled serialization stream -/

/-- Decoding a block of encoded characters recovers them. -/
theorem decChars_map_schar (l : List Char) :
    decChars (l.map StreamItem.schar) = some l := by
  induction l with
  | nil => rfl
  | cons a t ih => simp [decChars, ih]

/-- Decoding an encoded string consumes exactly the encoding. -/
theorem decString_encString (s : List Char) (rest : List StreamItem) :
    decString (encString s ++ rest) = some (s, rest) := by
  have hlen : (s.map StreamItem.schar).length = s.length := by simp
  simp only [encString, List.cons_append, decString]
  rw [if_pos (by simp)]
  rw [List.take_left' hlen, List.drop_left' hlen, decChars_map_schar]
  rfl

/-! ### Claim theorems -/

/-- C6: both example structs are default-constructible with definite field
values — a default `MyColorValue` is black with an empty name, a default
`MySerializableObject` has value 0 and an empty name — and no further
invariant constrains the types: every field combination is a value. -/
theorem claim_C6_default_constructors :
    MyColorValue.defaultCtor.colorVal = blackColor ∧
    MyColorValue.defaultCtor.name = [] ∧
    MySerializableObject.defaultCtor.value = 0 ∧
    MySerializableObject.defaultCtor.name = [] ∧
    (∀ (c : Color) (n : List Char), ∃ v : MyColorValue, v.colorVal = c ∧ v.name = n) ∧
    (∀ (n : List Char) (z : Int), ∃ o : MySerializableObject, o.name = n ∧ o.value = z) :=
  ⟨rfl, rfl, rfl, rfl, fun c n => ⟨⟨c, n⟩, rfl, rfl⟩, fun n z => ⟨⟨n, z⟩, rfl, rfl⟩⟩

/-- C7: `MyColorValueConvert::Format` is the identity on every value that is
not a `MyColorValue`, and on a `MyColorValue` it produces the formatted
string `name (colorstring)`. -/
theorem claim_C7_format_identity_on_others :
    ∀ (colorToString : Color → List Char) (q : UValue),
      (q.isMyColorValue = false → MyColorValueConvert.Format colorToString q = q) ∧
      (∀ m : MyColorValue,
        MyColorValueConvert.Format colorToString (.mcv m) =
          .str (m.name ++ ' ' :: '(' :: (colorToString m.colorVal ++ [')']))) := by
  intro ct q
  constructor
  · intro h
    cases q with
    | error => rfl
    | str s => rfl
    | mcv m => simp [UValue.isMyColorValue] at h
    | vint z => rfl
  · intro m
    rfl

/-- Witness for C7 at a non-`MyColorValue` input: an integer value passes
through `Format` unchanged. -/
theorem claim_C7_witness :
    MyColorValueConvert.Format colorToStringModel (.vint 5) = .vint 5 :=
  (claim_C7_format_identity_on_others colorToStringModel (.vint 5)).1 rfl

/-- C3: serialization round-trips — for every `MySerializableObject`,
`LoadFromString` of `StoreAsString` succeeds and returns an object whose
name and value equal the original's (so the example's two `ASSERT`s hold),
and the same holds through `StoreToFile` followed by `LoadFromFile`. -/
theorem claim_C3_serialization_roundtrip :
    ∀ o : MySerializableObject,
      (∃ r, loadFromString (storeAsString o) = some r ∧
        r.name = o.name ∧ r.value = o.value) ∧
      (∃ r, loadFromFile (storeToFile o) = some r ∧
        r.name = o.name ∧ r.value = o.value) := by
  intro o
  have h : loadFromString (storeAsString o) = some ⟨o.name, o.value⟩ := by
    simp [storeAsString, loadFromString, decString_encString o.name [.sint o.value]]
  have h2 : loadFromFile (storeToFile o) = some ⟨o.name, o.value⟩ := h
  exact ⟨⟨⟨o.name, o.value⟩, h, rfl, rfl⟩, ⟨⟨o.name, o.value⟩, h2, rfl, rfl⟩⟩

/-- Folding addition from an accumulator equals the accumulator plus the sum. -/
theorem foldl_add_eq_add_sum (l : List Int) (a : Int) :
    l.foldl (· + ·) a = a + l.sum := by
  induction l generalizing a with
  | nil => simp
  | cons x t ih => simp [ih, List.sum_cons]; ring

/-- C4: however `CoPartition` splits the list 1..100 into contiguous
subranges (`parts` concatenating back to the list), and in whatever order
the workers accumulate their local sums into the atomic counter (`sched`, a
permutation of the subranges), the accumulated total equals the sequential
sum, which is 5050 — so the example's `ASSERT` holds. -/
theorem claim_C4_parallel_sum_total :
    ∀ (parts sched : List (List Int)),
      parts.flatten = parNumbers → sched.Perm parts →
      coPartitionTotal sched = expectedSum ∧ expectedSum = 5050 := by
  intro parts sched hflat hperm
  have hloc : ∀ l : List Int, localSum l = l.sum := fun l => by
    simpa using foldl_add_eq_add_sum l 0
  have hmap : sched.map localSum = sched.map List.sum :=
    List.map_congr_left fun l _ => hloc l
  have h5050 : expectedSum = 5050 := by decide
  constructor
  · have : coPartitionTotal sched = (sched.map List.sum).sum := by
      simpa [coPartitionTotal, hmap] using
        foldl_add_eq_add_sum (sched.map List.sum) 0
    rw [this, (hperm.map List.sum).sum_eq, ← List.sum_flatten, hflat]
    simpa using foldl_add_eq_add_sum parNumbers 0
  · exact h5050

/-- Witness for C4 at a concrete partition: a single subrange holding the
whole list, scheduled as is. -/
theorem claim_C4_witness :
    coPartitionTotal [parNumbers] = expectedSum ∧ expectedSum = 5050 :=
  claim_C4_parallel_sum_total [parNumbers] [parNumbers] (by simp) (List.Perm.refl _)

/-- C5 counterexample: a failing file load in the serialization example. The
content of the empty file does not deserialize (`LoadFromFile` returns its
`false` through `none`), yet the example's check completes normally with the
error log line — no value of the exception type is raised, refuting the
claim that such failures are signaled via the framework exception type. -/
theorem claim_C5_counterexample :
    loadFromFile [] = none ∧
    loadFromFileCheck [] = Except.ok msgFileLoadFailed :=
  ⟨rfl, rfl⟩

/-- C5 (amended): in the serialization example a failed `LoadFromFile` is
signaled by its boolean `false` return and an error log line, never by a
raised exception; the framework exception type `Exc` figures only in the
guide's file-open snippet, which throws it when the file cannot be opened. -/
theorem claim_C5_file_failure_signaling :
    (∀ content : List StreamItem, loadFromFile content = none →
      loadFromFileCheck content = Except.ok msgFileLoadFailed) ∧
    guideFileOpenCheck false = Except.error "Cannot open data.txt".toList := by
  constructor
  · intro content h
    simp [loadFromFileCheck, h]
  · rfl

/-- Witness for the amended C5 at a concrete corrupt file content: a stream
announcing three characters but containing none. -/
theorem claim_C5_witness :
    loadFromFileCheck [StreamItem.snat 3] = Except.ok msgFileLoadFailed :=
  claim_C5_file_failure_signaling.1 [StreamItem.snat 3] (by decide)

/-- C9: the convert-button handler is atomic — whenever `Scan` of the edit
text does not yield a `MyColorValue`, the color control's `data` is left
unchanged and the result label is set to the failure message; `SetData` (and
hence a change of `data` and the success label) happens exactly when `Scan`
returns a `MyColorValue`. -/
theorem claim_C9_convert_button_atomicity :
    ∀ (colorScan : List Char → Option Color) (editText : List Char) (st : WindowState),
      ((∀ m : MyColorValue,
          MyColorValueConvert.Scan colorScan (.str editText) ≠ .mcv m) →
        convertButtonHandler colorScan editText st = ⟨st.ctrlData, failMsg⟩) ∧
      (∀ m : MyColorValue,
        MyColorValueConvert.Scan colorScan (.str editText) = .mcv m →
        convertButtonHandler colorScan editText st = ⟨m, successMsg⟩) := by
  intro cs t st
  constructor
  · intro h
    rcases hscan : MyColorValueConvert.Scan cs (.str t) with _ | s | m | z
    · simp [convertButtonHandler, hscan]
    · simp [convertButtonHandler, hscan]
    · exact absurd hscan (h m)
    · simp [convertButtonHandler, hscan]
  · intro m hm
    simp [convertButtonHandler, hm]

/-- Witness for C9 at the console example's invalid string: the control data
is untouched and the label shows the failure message. -/
theorem claim_C9_witness :
    convertButtonHandler colorScanModel "Invalid Format Console".toList
      ⟨MyColorValue.defaultCtor, []⟩ = ⟨MyColorValue.defaultCtor, failMsg⟩ := by
  apply (claim_C9_convert_button_atomicity colorScanModel
    "Invalid Format Console".toList ⟨MyColorValue.defaultCtor, []⟩).1
  intro m hm
  have he : MyColorValueConvert.Scan colorScanModel
      (UValue.str "Invalid Format Console".toList) = UValue.error := by decide
  rw [he] at hm
  exact UValue.noConfusion hm

/-- Success characterization of the parser: with the first parentheses well
placed and the color spec accepted, `Scan` builds the `MyColorValue`. -/
theorem scan_str_success (colorScan : List Char → Option Color) (s : List Char)
    (ob cb : Nat) (c : Color)
    (h1 : sfind '(' s = some ob) (h2 : sfind ')' s = some cb)
    (h3 : ob + 1 < cb)
    (h4 : colorScan (trimBoth ((s.drop (ob + 1)).take (cb - ob - 1))) = some c) :
    MyColorValueConvert.Scan colorScan (.str s) =
      .mcv ⟨c, trimBoth (s.take ob)⟩ := by
  simp [MyColorValueConvert.Scan, h1, h2, h3, h4]

/-- C1 counterexample: the claim quantifies over strings merely containing
an opening parenthesis somewhere and a closing parenthesis strictly later
with content between. The string `") (#FF0000)"` has `(` at index 2 and `)`
at index 10 with the accepted color spec `#FF0000` between them, so it is of
the claimed form, yet `Scan` returns the error value, because the code takes
the first `)` of the whole string (index 0), which precedes the first `(`. -/
theorem claim_C1_counterexample :
    ([')', ' ', '(', '#', 'F', 'F', '0', '0', '0', '0', ')'][2]? = some '(') ∧
    ([')', ' ', '(', '#', 'F', 'F', '0', '0', '0', '0', ')'][10]? = some ')') ∧
    2 + 1 < 10 ∧
    colorScanModel (([')', ' ', '(', '#', 'F', 'F', '0', '0', '0', '0', ')'].drop 3).take 7)
      = some ⟨255, 0, 0⟩ ∧
    MyColorValueConvert.Scan colorScanModel
      (.str [')', ' ', '(', '#', 'F', 'F', '0', '0', '0', '0', ')']) = .error := by
  decide

/-- C1 (amended): for every string whose first opening parenthesis precedes
the first closing parenthesis of the whole string with at least one
character between them, and whose text between those two parentheses is
(after trimming) accepted by `Color::Scan`, `Scan` returns a `MyColorValue`
whose name is the whitespace-trimmed text before the opening parenthesis and
whose color is the parsed color. -/
theorem claim_C1_scan_parses_first_parens :
    ∀ (colorScan : List Char → Option Color) (s : List Char) (ob cb : Nat) (c : Color),
      sfind '(' s = some ob → sfind ')' s = some cb → ob + 1 < cb →
      colorScan (trimBoth ((s.drop (ob + 1)).take (cb - ob - 1))) = some c →
      MyColorValueConvert.Scan colorScan (.str s) =
        .mcv ⟨c, trimBoth (s.take ob)⟩ := by
  intro cs s ob cb c h1 h2 h3 h4
  exact scan_str_success cs s ob cb c h1 h2 h3 h4

/-- Witness for the amended C1 at the window's suggested input
`"Lime (#00FF00)"`. -/
theorem claim_C1_witness :
    MyColorValueConvert.Scan colorScanModel (.str "Lime (#00FF00)".toList) =
      .mcv ⟨⟨0, 255, 0⟩, "Lime".toList⟩ := by
  have h := claim_C1_scan_parses_first_parens colorScanModel
    "Lime (#00FF00)".toList 5 13 ⟨0, 255, 0⟩ (by decide) (by decide) (by decide) (by decide)
  rw [h]
  decide

/-- C2: every string input that fails to parse — no opening parenthesis, no
closing parenthesis after the (first) opening one, nothing between the two
parentheses the parser picks, or a parenthesized part rejected by
`Color::Scan` — makes `Scan` return the error-value sentinel, never a
`MyColorValue`. -/
theorem claim_C2_scan_failure_error_value :
    ∀ (colorScan : List Char → Option Color) (s : List Char),
      ('(' ∉ s ∨
       (∃ ob, sfind '(' s = some ob ∧ ∀ j, ob < j → s[j]? ≠ some ')') ∨
       (∃ ob, sfind '(' s = some ob ∧ sfind ')' s = some (ob + 1)) ∨
       (∃ ob cb, sfind '(' s = some ob ∧ sfind ')' s = some cb ∧ ob + 1 < cb ∧
         colorScan (trimBoth ((s.drop (ob + 1)).take (cb - ob - 1))) = none)) →
      MyColorValueConvert.Scan colorScan (.str s) = .error ∧
      ∀ m : MyColorValue, MyColorValueConvert.Scan colorScan (.str s) ≠ .mcv m := by
  intro cs s hfail
  have herr : MyColorValueConvert.Scan cs (.str s) = .error := by
    rcases hfail with h | ⟨ob, hob, hafter⟩ | ⟨ob, hob, hcb⟩ | ⟨ob, cb, hob, hcb, hlt, hrej⟩
    · have h0 : sfind '(' s = none := (sfind_eq_none_iff '(' s).2 h
      simp [MyColorValueConvert.Scan, h0]
    · rcases hcb : sfind ')' s with _ | cb
      · simp [MyColorValueConvert.Scan, hob, hcb]
      · have hc : s[cb]? = some ')' := sfind_getElem ')' s cb hcb
        have hle : ¬ ob < cb := fun hlt => hafter cb hlt hc
        have hnlt : ¬ (ob + 1 < cb) := by omega
        simp [MyColorValueConvert.Scan, hob, hcb, hnlt]
    · simp [MyColorValueConvert.Scan, hob, hcb]
    · simp [MyColorValueConvert.Scan, hob, hcb, hlt, hrej]
  refine ⟨herr, fun m hm => ?_⟩
  rw [herr] at hm
  exact UValue.noConfusion hm

/-- Witness for C2 at the console example's invalid string, which contains
no parenthesis at all. -/
theorem claim_C2_witness :
    MyColorValueConvert.Scan colorScanModel
      (.str "Invalid Format".toList) = .error :=
  (claim_C2_scan_failure_error_value colorScanModel "Invalid Format".toList
    (Or.inl (by decide))).1

/-- C8: `Scan` inverts `Format` — for every `MyColorValue` whose name
contains no parenthesis and carries no leading or trailing whitespace, and
whose color's string form is accepted back by `Color::Scan`, scanning the
string `Format` produces returns an equal `MyColorValue` (same name and
color). -/
theorem claim_C8_scan_inverts_format :
    ∀ m : MyColorValue,
      '(' ∉ m.name → ')' ∉ m.name → trimBoth m.name = m.name →
      colorScanModel (colorToStringModel m.colorVal) = some m.colorVal →
      MyColorValueConvert.Scan colorScanModel
        (MyColorValueConvert.Format colorToStringModel (.mcv m)) = .mcv m := by
  intro m hopen hclose htrim hscan
  have hcsnc : ')' ∉ colorToStringModel m.colorVal :=
    colorToStringModel_no_close m.colorVal
  have hcsns : ∀ ch ∈ colorToStringModel m.colorVal, isSpaceB ch = false :=
    colorToStringModel_no_space m.colorVal
  have hlen : (colorToStringModel m.colorVal).length = 7 :=
    colorToStringModel_length m.colorVal
  show MyColorValueConvert.Scan colorScanModel
    (.str (m.name ++ ' ' :: '(' :: (colorToStringModel m.colorVal ++ [')']))) = .mcv m
  obtain ⟨cs, hg⟩ : ∃ cs, colorToStringModel m.colorVal = cs := ⟨_, rfl⟩
  rw [hg] at hcsnc hcsns hlen hscan ⊢
  have hf1 : sfind '(' (' ' :: '(' :: (cs ++ [')'])) = some 1 := by
    simp [sfind]
  have hob : sfind '(' (m.name ++ ' ' :: '(' :: (cs ++ [')'])) =
      some (1 + m.name.length) := by
    rw [sfind_append_of_not_mem '(' m.name _ hopen, hf1]
    rfl
  have hf2 : sfind ')' (cs ++ [')']) = some (0 + cs.length) := by
    rw [sfind_append_of_not_mem ')' cs [')'] hcsnc]
    simp [sfind]
  have hf3 : sfind ')' (' ' :: '(' :: (cs ++ [')'])) =
      some (0 + cs.length + 1 + 1) := by
    simp [sfind, hf2]
  have hcb : sfind ')' (m.name ++ ' ' :: '(' :: (cs ++ [')'])) =
      some (0 + cs.length + 1 + 1 + m.name.length) := by
    rw [sfind_append_of_not_mem ')' m.name _ hclose, hf3]
    rfl
  have hlt : (1 + m.name.length) + 1 < 0 + cs.length + 1 + 1 + m.name.length := by
    omega
  have htake : (m.name ++ ' ' :: '(' :: (cs ++ [')'])).take (1 + m.name.length) =
      m.name ++ [' '] := by
    rw [show 1 + m.name.length = m.name.length + 1 by omega, List.take_append]
    rfl
  have hname : trimBoth ((m.name ++ ' ' :: '(' :: (cs ++ [')'])).take
      (1 + m.name.length)) = m.name := by
    rw [htake, trimBoth_append_space, htrim]
  have hdrop : (m.name ++ ' ' :: '(' :: (cs ++ [')'])).drop ((1 + m.name.length) + 1) =
      cs ++ [')'] := by
    rw [show (1 + m.name.length) + 1 = m.name.length + 2 by omega, List.drop_append]
    rfl
  have hcolor : ((m.name ++ ' ' :: '(' :: (cs ++ [')'])).drop ((1 + m.name.length) + 1)).take
      ((0 + cs.length + 1 + 1 + m.name.length) - (1 + m.name.length) - 1) = cs := by
    rw [hdrop, show (0 + cs.length + 1 + 1 + m.name.length) - (1 + m.name.length) - 1 =
      cs.length by omega]
    exact List.take_left cs [')']
  have htrimcs : trimBoth cs = cs := trimBoth_eq_self cs hcsns
  have hmain := scan_str_success colorScanModel
    (m.name ++ ' ' :: '(' :: (cs ++ [')'])) (1 + m.name.length)
    (0 + cs.length + 1 + 1 + m.name.length) m.colorVal hob hcb hlt
    (by rw [hcolor, htrimcs]; exact hscan)
  rw [hname] at hmain
  exact hmain

/-- Witness for C8 at the console example's color value: the name `Red` with
pure red round-trips through `Format` and `Scan`. -/
theorem claim_C8_witness :
    MyColorValueConvert.Scan colorScanModel
      (MyColorValueConvert.Format colorToStringModel
        (.mcv ⟨⟨255, 0, 0⟩, "Red".toList⟩)) =
      .mcv ⟨⟨255, 0, 0⟩, "Red".toList⟩ :=
  claim_C8_scan_inverts_format ⟨⟨255, 0, 0⟩, "Red".toList⟩
    (by decide) (by decide) (by decide) (by decide)
